import Mathlib

/-!
Verification of the tchannel-python repository: a shallow embedding of the
Thrift scheme glue (tchannel/thrift/rw.py), the JSON argument scheme
(tchannel/schemes/json.py), and the frame codec described by the design
document, together with theorems settling the stated properties.

Bytes are modelled as natural numbers below 256; machine integers carried by
the wire format are modelled as Nat with explicit bounds.
-/

namespace TChannelPy

/-! ## Byte-level helpers: big-endian u16 and u32 -/

/-- Big-endian encoding of a 16-bit unsigned integer as two bytes. -/
def u16be (n : Nat) : List Nat :=
  [n / 256 % 256, n % 256]

/-- Big-endian encoding of a 32-bit unsigned integer as four bytes. -/
def u32be (n : Nat) : List Nat :=
  [n / 16777216 % 256, n / 65536 % 256, n / 256 % 256, n % 256]

theorem u16be_val (n : Nat) (h : n < 65536) :
    (n / 256 % 256) * 256 + n % 256 = n := by
  omega

theorem u32be_val (n : Nat) (h : n < 4294967296) :
    ((n / 16777216 % 256 * 256 + n / 65536 % 256) * 256 + n / 256 % 256) * 256
      + n % 256 = n := by
  omega

/-! ## Frame codec

Modelled from the spec: the frame codec (section 4.1 and the data model in
section 3) is not among the source files of this snapshot, so it is embedded
from the design document. A frame is a fixed 16-byte header followed by a
variable payload; the header holds size (u16, total length including the
header), type (u8), a reserved byte, id (u32) and 8 reserved bytes. -/

/-- The eleven frame types of the wire protocol with their u8 codes. -/
inductive FrameType where
  | initReq
  | initRes
  | callReq
  | callRes
  | callReqContinue
  | callResContinue
  | cancel
  | claim
  | pingReq
  | pingRes
  | error
deriving DecidableEq

/-- The u8 code of a frame type. -/
def FrameType.code : FrameType → Nat
  | .initReq => 0x01
  | .initRes => 0x02
  | .callReq => 0x03
  | .callRes => 0x04
  | .callReqContinue => 0x13
  | .callResContinue => 0x14
  | .cancel => 0xC0
  | .claim => 0xC1
  | .pingReq => 0xD0
  | .pingRes => 0xD1
  | .error => 0xFF

/-- Recover a frame type from its u8 code. -/
def FrameType.ofCode : Nat → Option FrameType
  | 0x01 => some .initReq
  | 0x02 => some .initRes
  | 0x03 => some .callReq
  | 0x04 => some .callRes
  | 0x13 => some .callReqContinue
  | 0x14 => some .callResContinue
  | 0xC0 => some .cancel
  | 0xC1 => some .claim
  | 0xD0 => some .pingReq
  | 0xD1 => some .pingRes
  | 0xFF => some .error
  | _ => none

theorem FrameType.ofCode_code (t : FrameType) : FrameType.ofCode t.code = some t := by
  cases t <;> rfl

/-- A wire frame: type, 32-bit message id, and opaque payload bytes. -/
structure Frame where
  ftype : FrameType
  fid : Nat
  payload : List Nat
deriving DecidableEq

/-- Well-formedness of a frame: the id fits in 32 bits, the payload leaves the
total size within the u16 size field (16 header bytes + payload, at most
65535), and the payload consists of bytes. -/
def Frame.WF (f : Frame) : Prop :=
  f.fid < 4294967296 ∧ f.payload.length ≤ 65519 ∧ ∀ b ∈ f.payload, b < 256

instance (f : Frame) : Decidable f.WF := by
  unfold Frame.WF
  infer_instance

/-- Encode a frame: u16 total size, type byte, reserved byte, u32 id, 8
reserved bytes, then the payload. -/
def encodeFrame (f : Frame) : List Nat :=
  u16be (16 + f.payload.length) ++ [f.ftype.code, 0] ++ u32be f.fid
    ++ List.replicate 8 0 ++ f.payload

/-- Decode one frame from a byte string: parse the 16-byte header, check the
size field, and split off the payload.  Returns the frame and the remaining
bytes, or none on a bad frame. -/
def decodeFrame : List Nat → Option (Frame × List Nat)
  | s1 :: s2 :: t :: _rsv :: i1 :: i2 :: i3 :: i4 ::
      _z1 :: _z2 :: _z3 :: _z4 :: _z5 :: _z6 :: _z7 :: _z8 :: rest =>
    let size := s1 * 256 + s2
    if size < 16 then none
    else if rest.length < size - 16 then none
    else
      match FrameType.ofCode t with
      | some ft =>
          some ({ ftype := ft,
                  fid := ((i1 * 256 + i2) * 256 + i3) * 256 + i4,
                  payload := rest.take (size - 16) }, rest.drop (size - 16))
      | none => none
  | _ => none

theorem encodeFrame_length (f : Frame) :
    (encodeFrame f).length = 16 + f.payload.length := by
  simp [encodeFrame, u16be, u32be]
  omega

theorem decodeFrame_encodeFrame (f : Frame) (hf : f.WF) (rest : List Nat) :
    decodeFrame (encodeFrame f ++ rest) = some (f, rest) := by
  obtain ⟨hid, hlen, -⟩ := hf
  have hsize : 16 + f.payload.length < 65536 := by omega
  have hs : (16 + f.payload.length) / 256 % 256 * 256 + (16 + f.payload.length) % 256
      = 16 + f.payload.length := u16be_val _ hsize
  simp only [encodeFrame, u16be, u32be, List.replicate, List.cons_append,
    List.nil_append, decodeFrame, hs]
  rw [if_neg (by omega)]
  rw [if_neg (by simp)]
  rw [FrameType.ofCode_code]
  have htake : (f.payload ++ rest).take (16 + f.payload.length - 16) = f.payload := by
    have : 16 + f.payload.length - 16 = f.payload.length := by omega
    rw [this, List.take_left]
  have hdrop : (f.payload ++ rest).drop (16 + f.payload.length - 16) = rest := by
    have : 16 + f.payload.length - 16 = f.payload.length := by omega
    rw [this, List.drop_left]
  rw [htake, hdrop, u32be_val f.fid hid]

/-- Claim C8: for every well-formed frame of every frame type, the encoded
size lies between 16 and 65535 inclusive, and decoding the encoding returns
the original frame (with no bytes left over). -/
theorem claim_C8_frame_codec (f : Frame) (hf : f.WF) :
    16 ≤ (encodeFrame f).length ∧ (encodeFrame f).length ≤ 65535 ∧
      decodeFrame (encodeFrame f) = some (f, []) := by
  have hlen := hf.2.1
  refine ⟨?_, ?_, ?_⟩
  · rw [encodeFrame_length]
    omega
  · rw [encodeFrame_length]
    omega
  · have h := decodeFrame_encodeFrame f hf []
    rwa [List.append_nil] at h

/-- Witness for claim C8 at a concrete call-request frame. -/
theorem claim_C8_frame_codec_witness :
    16 ≤ (encodeFrame ⟨FrameType.callReq, 42, [1, 2, 3]⟩).length ∧
      (encodeFrame ⟨FrameType.callReq, 42, [1, 2, 3]⟩).length ≤ 65535 ∧
      decodeFrame (encodeFrame ⟨FrameType.callReq, 42, [1, 2, 3]⟩) =
        some (⟨FrameType.callReq, 42, [1, 2, 3]⟩, []) :=
  claim_C8_frame_codec ⟨FrameType.callReq, 42, [1, 2, 3]⟩ (by decide)

/-! ## JSON values and the JSON serializer

Modelled from the spec: the JsonSerializer used by the JSON argument scheme
(tchannel/serializer/json.py) is not among the source files of this snapshot.
Section 6.3 of the design document requires a scheme to provide
serializeHeaders and serializeBody producing opaque bytes, together with
their inverses.  JSON documents are modelled by the inductive type below
(numbers as integers) and serialized with a tagged, length-prefixed byte
format; the deserializers are proved to invert the serializers. -/

/-- A JSON document: null, booleans, integers, strings, arrays, objects. -/
inductive Json where
  | null : Json
  | bool (b : Bool) : Json
  | num (n : Int) : Json
  | str (s : List Char) : Json
  | arr (elems : List Json) : Json
  | obj (fields : List (List Char × Json)) : Json

/-- Variable-length encoding of a natural number, 7 bits per byte, low bits
first; a byte below 128 terminates the number. -/
def encNat (n : Nat) : List Nat :=
  if n < 128 then [n]
  else (128 + n % 128) :: encNat (n / 128)
decreasing_by exact Nat.div_lt_self (by omega) (by omega)

/-- Decode a variable-length natural number, returning it and the rest. -/
def decNat : List Nat → Option (Nat × List Nat)
  | [] => none
  | b :: rest =>
    if b < 128 then some (b, rest)
    else
      match decNat rest with
      | some (m, rest2) => some ((b - 128) + m * 128, rest2)
      | none => none

theorem decNat_encNat (n : Nat) (rest : List Nat) :
    decNat (encNat n ++ rest) = some (n, rest) := by
  induction n using Nat.strong_induction_on with
  | _ n ih =>
    rw [encNat]
    by_cases h : n < 128
    · simp [h, decNat]
    · have hrec := ih (n / 128) (Nat.div_lt_self (by omega) (by omega))
      simp only [h, if_false, List.cons_append, decNat, hrec]
      rw [if_neg (by omega)]
      simp only [Option.some.injEq, Prod.mk.injEq, and_true]
      omega

/-- Encode a character sequence, one variable-length code point per char. -/
def encChars : List Char → List Nat
  | [] => []
  | c :: cs => encNat c.toNat ++ encChars cs

/-- Decode a given number of characters. -/
def decChars : Nat → List Nat → Option (List Char × List Nat)
  | 0, bs => some ([], bs)
  | k + 1, bs =>
    match decNat bs with
    | some (m, rest) =>
      match decChars k rest with
      | some (cs, rest2) => some (Char.ofNat m :: cs, rest2)
      | none => none
    | none => none

theorem decChars_encChars (s : List Char) (rest : List Nat) :
    decChars s.length (encChars s ++ rest) = some (s, rest) := by
  induction s with
  | nil => rfl
  | cons c cs ih =>
    simp only [encChars, List.length_cons, decChars, List.append_assoc,
      decNat_encNat, ih, Char.ofNat_toNat]

/-- Encode an integer: sign byte then the magnitude. -/
def encInt : Int → List Nat
  | Int.ofNat m => 0 :: encNat m
  | Int.negSucc m => 1 :: encNat m

/-- Decode an integer encoded by encInt. -/
def decInt : List Nat → Option (Int × List Nat)
  | 0 :: rest =>
    match decNat rest with
    | some (m, rest2) => some (Int.ofNat m, rest2)
    | none => none
  | 1 :: rest =>
    match decNat rest with
    | some (m, rest2) => some (Int.negSucc m, rest2)
    | none => none
  | _ => none

theorem decInt_encInt (n : Int) (rest : List Nat) :
    decInt (encInt n ++ rest) = some (n, rest) := by
  cases n <;> simp [encInt, decInt, decNat_encNat]

mutual

/-- Serialize a JSON document to bytes: a tag byte, then the
length-prefixed contents. -/
def encJson : Json → List Nat
  | .null => [0]
  | .bool b => [1, cond b 1 0]
  | .num n => 2 :: encInt n
  | .str s => 3 :: (encNat s.length ++ encChars s)
  | .arr xs => 4 :: (encNat xs.length ++ encJsonList xs)
  | .obj fs => 5 :: (encNat fs.length ++ encJsonFields fs)

/-- Serialize the elements of a JSON array, in order. -/
def encJsonList : List Json → List Nat
  | [] => []
  | j :: js => encJson j ++ encJsonList js

/-- Serialize the fields of a JSON object, in order: each key as a
length-prefixed character sequence, then the value. -/
def encJsonFields : List (List Char × Json) → List Nat
  | [] => []
  | (k, v) :: fs => encNat k.length ++ encChars k ++ encJson v ++ encJsonFields fs

end

mutual

/-- Decode one JSON document, with fuel bounding the nesting depth. -/
def decJson : Nat → List Nat → Option (Json × List Nat)
  | 0, _ => none
  | _ + 1, 0 :: rest => some (.null, rest)
  | _ + 1, 1 :: b :: rest =>
    if b = 1 then some (.bool true, rest)
    else if b = 0 then some (.bool false, rest)
    else none
  | _ + 1, 2 :: rest =>
    match decInt rest with
    | some (n, rest2) => some (.num n, rest2)
    | none => none
  | _ + 1, 3 :: rest =>
    match decNat rest with
    | some (len, rest2) =>
      match decChars len rest2 with
      | some (s, rest3) => some (.str s, rest3)
      | none => none
    | none => none
  | fuel + 1, 4 :: rest =>
    match decNat rest with
    | some (len, rest2) =>
      match decJsonList fuel len rest2 with
      | some (xs, rest3) => some (.arr xs, rest3)
      | none => none
    | none => none
  | fuel + 1, 5 :: rest =>
    match decNat rest with
    | some (len, rest2) =>
      match decJsonFields fuel len rest2 with
      | some (fs, rest3) => some (.obj fs, rest3)
      | none => none
    | none => none
  | _ + 1, _ => none

/-- Decode a given number of JSON array elements. -/
def decJsonList : Nat → Nat → List Nat → Option (List Json × List Nat)
  | _, 0, bs => some ([], bs)
  | fuel, k + 1, bs =>
    match decJson fuel bs with
    | some (j, rest) =>
      match decJsonList fuel k rest with
      | some (js, rest2) => some (j :: js, rest2)
      | none => none
    | none => none

/-- Decode a given number of JSON object fields. -/
def decJsonFields : Nat → Nat → List Nat → Option (List (List Char × Json) × List Nat)
  | _, 0, bs => some ([], bs)
  | fuel, k + 1, bs =>
    match decNat bs with
    | some (klen, rest) =>
      match decChars klen rest with
      | some (key, rest2) =>
        match decJson fuel rest2 with
        | some (v, rest3) =>
          match decJsonFields fuel k rest3 with
          | some (fs, rest4) => some ((key, v) :: fs, rest4)
          | none => none
        | none => none
      | none => none
    | none => none

end

mutual

/-- Nesting depth of a JSON document. -/
def jsonDepth : Json → Nat
  | .null => 1
  | .bool _ => 1
  | .num _ => 1
  | .str _ => 1
  | .arr xs => jsonListDepth xs + 1
  | .obj fs => jsonFieldsDepth fs + 1

/-- Greatest nesting depth among array elements. -/
def jsonListDepth : List Json → Nat
  | [] => 0
  | j :: js => max (jsonDepth j) (jsonListDepth js)

/-- Greatest nesting depth among object field values. -/
def jsonFieldsDepth : List (List Char × Json) → Nat
  | [] => 0
  | (_, v) :: fs => max (jsonDepth v) (jsonFieldsDepth fs)

end

theorem one_le_jsonDepth (j : Json) : 1 ≤ jsonDepth j := by
  cases j <;> simp [jsonDepth]

theorem decJson_encJson_all (fuel : Nat) :
    (∀ j rest, jsonDepth j ≤ fuel → decJson fuel (encJson j ++ rest) = some (j, rest)) ∧
    (∀ js rest, jsonListDepth js ≤ fuel →
      decJsonList fuel js.length (encJsonList js ++ rest) = some (js, rest)) ∧
    (∀ fs rest, jsonFieldsDepth fs ≤ fuel →
      decJsonFields fuel fs.length (encJsonFields fs ++ rest) = some (fs, rest)) := by
  induction fuel with
  | zero =>
    refine ⟨?_, ?_, ?_⟩
    · intro j rest h
      exact absurd h (by have := one_le_jsonDepth j; omega)
    · intro js rest h
      cases js with
      | nil => simp [encJsonList, decJsonList]
      | cons j js =>
        exact absurd h (by
          have h1 := one_le_jsonDepth j
          have h2 : jsonDepth j ≤ jsonListDepth (j :: js) := le_max_left _ _
          omega)
    · intro fs rest h
      cases fs with
      | nil => simp [encJsonFields, decJsonFields]
      | cons f fs =>
        exact absurd h (by
          obtain ⟨k, v⟩ := f
          have h1 := one_le_jsonDepth v
          have h2 : jsonDepth v ≤ jsonFieldsDepth ((k, v) :: fs) := le_max_left _ _
          omega)
  | succ fuel ih =>
    obtain ⟨-, ihL, ihF⟩ := ih
    have hP : ∀ j rest, jsonDepth j ≤ fuel + 1 →
        decJson (fuel + 1) (encJson j ++ rest) = some (j, rest) := by
      intro j rest h
      cases j with
      | null => simp [encJson, decJson]
      | bool b => cases b <;> simp [encJson, decJson]
      | num n =>
        simp only [encJson, List.cons_append, decJson, decInt_encInt]
      | str s =>
        simp only [encJson, List.cons_append, List.append_assoc, decJson,
          decNat_encNat, decChars_encChars]
      | arr xs =>
        have hxs : jsonListDepth xs ≤ fuel := by
          simp only [jsonDepth] at h
          omega
        simp only [encJson, List.cons_append, List.append_assoc, decJson,
          decNat_encNat, ihL xs rest hxs]
      | obj fs =>
        have hfs : jsonFieldsDepth fs ≤ fuel := by
          simp only [jsonDepth] at h
          omega
        simp only [encJson, List.cons_append, List.append_assoc, decJson,
          decNat_encNat, ihF fs rest hfs]
    refine ⟨hP, ?_, ?_⟩
    · intro js
      induction js with
      | nil => intro rest h; simp [encJsonList, decJsonList]
      | cons j js ihjs =>
        intro rest h
        have hj : jsonDepth j ≤ fuel + 1 := le_trans (le_max_left _ _) h
        have hjs : jsonListDepth js ≤ fuel + 1 := le_trans (le_max_right _ _) h
        simp only [encJsonList, List.length_cons, List.append_assoc, decJsonList,
          hP j _ hj, ihjs rest hjs]
    · intro fs
      induction fs with
      | nil => intro rest h; simp [encJsonFields, decJsonFields]
      | cons f fs ihfs =>
        intro rest h
        obtain ⟨k, v⟩ := f
        have hv : jsonDepth v ≤ fuel + 1 := le_trans (le_max_left _ _) h
        have hfs : jsonFieldsDepth fs ≤ fuel + 1 := le_trans (le_max_right _ _) h
        simp only [encJsonFields, List.length_cons, List.append_assoc, decJsonFields,
          decNat_encNat, decChars_encChars, hP v _ hv, ihfs rest hfs]

theorem one_le_encNat_length (n : Nat) : 1 ≤ (encNat n).length := by
  rw [encNat]
  split <;> simp

theorem jsonDepth_le_encJson_length (n : Nat) :
    (∀ j : Json, sizeOf j ≤ n → jsonDepth j ≤ (encJson j).length) ∧
    (∀ js : List Json, sizeOf js ≤ n → jsonListDepth js ≤ (encJsonList js).length) ∧
    (∀ fs : List (List Char × Json), sizeOf fs ≤ n →
      jsonFieldsDepth fs ≤ (encJsonFields fs).length) := by
  induction n with
  | zero =>
    refine ⟨?_, ?_, ?_⟩
    · intro j h
      exfalso
      cases j <;> simp at h
    · intro js h
      exfalso
      cases js <;> simp at h
    · intro fs h
      exfalso
      cases fs <;> simp at h
  | succ n ih =>
    obtain ⟨ihJ, ihL, ihF⟩ := ih
    refine ⟨?_, ?_, ?_⟩
    · intro j h
      cases j with
      | null => simp [jsonDepth, encJson]
      | bool b => simp [jsonDepth, encJson]
      | num m => simp [jsonDepth, encJson]
      | str s => simp [jsonDepth, encJson]
      | arr xs =>
        simp only [Json.arr.sizeOf_spec] at h
        have hd := ihL xs (by omega)
        have he := one_le_encNat_length xs.length
        simp only [jsonDepth, encJson, List.length_cons, List.length_append]
        omega
      | obj fs =>
        simp only [Json.obj.sizeOf_spec] at h
        have hd := ihF fs (by omega)
        have he := one_le_encNat_length fs.length
        simp only [jsonDepth, encJson, List.length_cons, List.length_append]
        omega
    · intro js h
      cases js with
      | nil => simp [jsonListDepth, encJsonList]
      | cons j js =>
        simp only [List.cons.sizeOf_spec] at h
        have h1 := ihJ j (by omega)
        have h2 := ihL js (by omega)
        simp only [jsonListDepth, encJsonList, List.length_append]
        exact max_le (by omega) (by omega)
    · intro fs h
      cases fs with
      | nil => simp [jsonFieldsDepth, encJsonFields]
      | cons f fs =>
        obtain ⟨k, v⟩ := f
        simp only [List.cons.sizeOf_spec, Prod.mk.sizeOf_spec] at h
        have h1 := ihJ v (by omega)
        have h2 := ihF fs (by omega)
        simp only [jsonFieldsDepth, encJsonFields, List.length_append]
        exact max_le (by omega) (by omega)

/-- Parse a whole byte string as one JSON document; trailing bytes or a parse
failure yield none.  The fuel is derived from the input length, which the
depth bound shows is always enough for well-formed encodings. -/
def jsonDecode (bs : List Nat) : Option Json :=
  match decJson (bs.length + 1) bs with
  | some (j, []) => some j
  | _ => none

theorem jsonDecode_encJson (j : Json) : jsonDecode (encJson j) = some j := by
  have hdep : jsonDepth j ≤ (encJson j).length :=
    (jsonDepth_le_encJson_length (sizeOf j)).1 j le_rfl
  have h := (decJson_encJson_all ((encJson j).length + 1)).1 j [] (by omega)
  rw [List.append_nil] at h
  simp [jsonDecode, h]

/-- Modelled from the spec: serializeHeaders of the JSON scheme
(JsonSerializer.serialize_header; tchannel/serializer/json.py is not among
the source files). -/
def serialize_header (h : Json) : List Nat := encJson h

/-- Modelled from the spec: deserializeHeaders of the JSON scheme, the
inverse required by section 6.3. -/
def deserialize_header (bs : List Nat) : Option Json := jsonDecode bs

/-- Modelled from the spec: serializeBody of the JSON scheme
(JsonSerializer.serialize_body). -/
def serialize_body (b : Json) : List Nat := encJson b

/-- Modelled from the spec: deserializeBody of the JSON scheme, the inverse
required by section 6.3. -/
def deserialize_body (bs : List Nat) : Option Json := jsonDecode bs

/-! ## The JSON argument scheme (tchannel/schemes/json.py) -/

/-- The options JsonArgScheme passes to the underlying transport call. -/
structure CallOptions where
  timeout : Option Nat
  retry_on : Option String
  retry_limit : Option Nat
  hostport : Option String
  shard_key : Option String
  trace : Option Bool
deriving DecidableEq

/-- The keyword arguments of the underlying transport call made by
JsonArgScheme. -/
structure TransportCallArgs where
  scheme : String
  service : String
  arg1 : String
  arg2 : List Nat
  arg3 : List Nat
  options : CallOptions
deriving DecidableEq

/-- A transport-level response, before the scheme deserializes it. -/
structure RawResponse where
  headers : List Nat
  body : List Nat
deriving DecidableEq

/-- The response after JsonArgScheme replaces headers and body with their
deserializations. -/
structure JsonResponse where
  headers : Option Json
  body : Option Json

/-- The scheme name, JsonArgScheme.NAME. -/
def JSON : String := "json"

/-- JsonArgScheme.call: serialize the headers and the body, invoke the
underlying transport with arg1 = endpoint, arg2 = serialized headers,
arg3 = serialized body and the options, then replace the response headers
and body by their deserializations. -/
def jsonSchemeCall (transport : TransportCallArgs → RawResponse)
    (service : String) (endpoint : String) (body : Json) (headers : Json)
    (options : CallOptions) : JsonResponse :=
  let headersBytes := serialize_header headers
  let bodyBytes := serialize_body body
  let response := transport
    { scheme := JSON, service := service, arg1 := endpoint,
      arg2 := headersBytes, arg3 := bodyBytes, options := options }
  { headers := deserialize_header response.headers,
    body := deserialize_body response.body }

/-- Claim C5: a JSON scheme call invokes the transport with arg1 equal to the
endpoint name, arg2 equal to the serialized headers, arg3 equal to the
serialized body, the scheme name json, the service, and all options passed
through unchanged; the delivered response has its headers and body replaced
by the corresponding deserializations. -/
theorem claim_C5_json_call_args (transport : TransportCallArgs → RawResponse)
    (service endpoint : String) (body headers : Json) (options : CallOptions) :
    jsonSchemeCall transport service endpoint body headers options =
      { headers := deserialize_header (transport
          { scheme := JSON, service := service, arg1 := endpoint,
            arg2 := serialize_header headers, arg3 := serialize_body body,
            options := options }).headers,
        body := deserialize_body (transport
          { scheme := JSON, service := service, arg1 := endpoint,
            arg2 := serialize_header headers, arg3 := serialize_body body,
            options := options }).body } := rfl

/-- Claim C6: through an echo transport, which returns arg2 and arg3
unchanged, a JSON scheme call yields a response whose headers and body are
the original headers and body: the deserializers invert the serializers. -/
theorem claim_C6_json_echo_roundtrip (service endpoint : String)
    (body headers : Json) (options : CallOptions) :
    jsonSchemeCall (fun a => { headers := a.arg2, body := a.arg3 })
        service endpoint body headers options =
      { headers := some headers, body := some body } := by
  simp [jsonSchemeCall, serialize_header, serialize_body, deserialize_header,
    deserialize_body, jsonDecode_encJson]

/-- The endpoint argument of JsonArgScheme.register: a callable handler or an
endpoint name. -/
inductive EndpointArg where
  | handlerFn (h : Nat)
  | name (s : String)
deriving DecidableEq

/-- The arguments JsonArgScheme.register forwards to the underlying tchannel
register. -/
structure RegisterForward where
  scheme : String
  endpoint : Option String
  handler : Option Nat
  kwargs : List (String × String)
deriving DecidableEq

/-- JsonArgScheme.register: a callable endpoint argument becomes the handler
with endpoint None; otherwise it is the endpoint name with handler None; in
both cases the registration is forwarded with scheme json. -/
def jsonSchemeRegister (endpoint : EndpointArg) (kwargs : List (String × String)) :
    RegisterForward :=
  match endpoint with
  | .handlerFn h =>
      { scheme := JSON, endpoint := none, handler := some h, kwargs := kwargs }
  | .name s =>
      { scheme := JSON, endpoint := some s, handler := none, kwargs := kwargs }

/-- Claim C10: JsonArgScheme.register forwards a callable argument as the
handler with endpoint None, a non-callable argument as the endpoint name with
handler None, and always fixes the scheme to json with the remaining keyword
arguments passed through. -/
theorem claim_C10_json_register (ep : EndpointArg) (kwargs : List (String × String)) :
    (jsonSchemeRegister ep kwargs).scheme = JSON ∧
    (∀ h, ep = .handlerFn h →
      jsonSchemeRegister ep kwargs =
        { scheme := JSON, endpoint := none, handler := some h, kwargs := kwargs }) ∧
    (∀ s, ep = .name s →
      jsonSchemeRegister ep kwargs =
        { scheme := JSON, endpoint := some s, handler := none, kwargs := kwargs }) := by
  refine ⟨?_, ?_, ?_⟩
  · cases ep <;> rfl
  · intro h he
    subst he
    rfl
  · intro s he
    subst he
    rfl

/-- Witness for claim C10 at a concrete callable registration. -/
theorem claim_C10_json_register_witness :
    jsonSchemeRegister (EndpointArg.handlerFn 7) [] =
      { scheme := JSON, endpoint := none, handler := some 7, kwargs := [] } :=
  (claim_C10_json_register (EndpointArg.handlerFn 7) []).2.1 7 rfl

/-! ## Thrift scheme glue (tchannel/thrift/rw.py)

Thrift values, exception classes and serializer classes are identified by
opaque numeric identities.  The response union class of a function is
modelled positionally: one optional exception slot per declared exception
field, in declaration order, plus the optional success slot. -/

/-- Response status code ok, tchannel.status.OK (0x00). -/
def OK : Nat := 0

/-- Response status code for application errors, tchannel.status.FAILED
(0x01). -/
def FAILED : Nat := 1

/-- The identity of a Python exception class. -/
structure ExcClass where
  classId : Nat
deriving DecidableEq

/-- A Python exception instance: its class and an opaque payload identity. -/
structure Exc where
  cls : ExcClass
  payload : Nat
deriving DecidableEq

/-- Python isinstance for the modelled exception classes. -/
def isinstance (e : Exc) (c : ExcClass) : Bool := e.cls == c

/-- A thriftrw FieldSpec for one declared exception of a function: its field
name and its exception class. -/
structure FieldSpec where
  name : String
  cls : ExcClass
deriving DecidableEq

/-- The type spec of a response union class: the declared exception fields in
declaration order, and whether the function returns a value (return_spec is
None exactly for void functions). -/
structure ResponseSpec where
  exception_specs : List FieldSpec
  return_spec : Option Unit
deriving DecidableEq

/-- An instance of a response union class.  The class generated by thriftrw
has exactly one field per declared exception spec plus the success field, so
an instance is modelled positionally: excValues lists the value of each
declared exception field in declaration order, and iterating it is the loop
over response_spec.exception_specs reading getattr(body, exc_spec.name). -/
structure ResponseBody where
  excValues : List (Option Exc)
  success : Option Nat
deriving DecidableEq

/-- The first set exception field, in declaration order. -/
def firstExc : List (Option Exc) → Option Exc
  | [] => none
  | some e :: _ => some e
  | none :: rest => firstExc rest

theorem firstExc_append (front tail : List (Option Exc)) (e : Exc)
    (hfront : ∀ x ∈ front, x = none) :
    firstExc (front ++ some e :: tail) = some e := by
  induction front with
  | nil => rfl
  | cons x xs ih =>
    have hx : x = none := hfront x (by simp)
    subst hx
    simp only [List.cons_append, firstExc]
    exact ih (fun y hy => hfront y (by simp [hy]))

theorem firstExc_of_all_none (vals : List (Option Exc))
    (h : ∀ x ∈ vals, x = none) : firstExc vals = none := by
  induction vals with
  | nil => rfl
  | cons x xs ih =>
    have hx : x = none := h x (by simp)
    subst hx
    simp only [firstExc]
    exact ih (fun y hy => h y (by simp [hy]))

/-- The outcome of ThriftRWRequest.read_body: the raised exception, a
ValueExpectedError, or the returned value (None for void functions). -/
inductive ReadBodyResult where
  | raised (e : Exc)
  | valueExpectedError (endpoint : String)
  | ok (v : Option Nat)
deriving DecidableEq

/-- ThriftRWRequest.read_body: raise the first set exception field; then,
for a non-void function, raise ValueExpectedError when success is None and
otherwise return it; for a void function return None. -/
def read_body (spec : ResponseSpec) (endpoint : String) (body : ResponseBody) :
    ReadBodyResult :=
  match firstExc body.excValues with
  | some e => .raised e
  | none =>
    match spec.return_spec with
    | some _ =>
      match body.success with
      | none => .valueExpectedError endpoint
      | some v => .ok (some v)
    | none => .ok none

/-- What the user handler did: returned a value (possibly None) or raised. -/
inductive HandlerResult where
  | ok (v : Option Nat)
  | exc (e : Exc)
deriving DecidableEq

/-- The outcome of the wrapped handler produced by build_handler: a normal
response, the original exception propagating out, or the failed assertion
that a non-void function returned None. -/
inductive HandleOutcome where
  | response (status : Nat) (body : ResponseBody)
  | reraised (e : Exc)
  | assertionFailed (endpoint : String)
deriving DecidableEq

/-- Index of the first declared exception spec whose class matches the raised
exception, mirroring the for/else loop of build_handler. -/
def findMatchIdx (e : Exc) : List FieldSpec → Option Nat
  | [] => none
  | fs :: rest =>
    if isinstance e fs.cls then some 0
    else (findMatchIdx e rest).map (· + 1)

theorem findMatchIdx_append (e : Exc) (front : List FieldSpec) (fs : FieldSpec)
    (tail : List FieldSpec) (hfs : isinstance e fs.cls = true)
    (hfront : ∀ g ∈ front, isinstance e g.cls = false) :
    findMatchIdx e (front ++ fs :: tail) = some front.length := by
  induction front with
  | nil => simp [findMatchIdx, hfs]
  | cons g gs ih =>
    have hg : isinstance e g.cls = false := hfront g (by simp)
    simp only [List.cons_append, findMatchIdx, hg, Bool.false_eq_true, if_false,
      List.append_eq, ih (fun y hy => hfront y (by simp [hy])), List.length_cons]
    rfl

theorem findMatchIdx_none (e : Exc) (specs : List FieldSpec)
    (h : ∀ g ∈ specs, isinstance e g.cls = false) :
    findMatchIdx e specs = none := by
  induction specs with
  | nil => rfl
  | cons g gs ih =>
    have hg : isinstance e g.cls = false := h g (by simp)
    simp only [findMatchIdx, hg, Bool.false_eq_true, if_false,
      ih (fun y hy => h y (by simp [hy]))]
    rfl

/-- The coroutine body of build_handler.handle: run the user handler; on an
exception matching a declared exception class, answer a FAILED response
carrying the exception in the matching field; on a non-matching exception,
re-raise it; on a normal return, assert that non-void functions returned a
value and answer an OK response with the success field set. -/
def handle (spec : ResponseSpec) (endpoint : String) (hres : HandlerResult) :
    HandleOutcome :=
  match hres with
  | .exc e =>
    match findMatchIdx e spec.exception_specs with
    | some i =>
        .response FAILED
          { excValues :=
              (List.replicate spec.exception_specs.length (none : Option Exc)).set
                i (some e),
            success := none }
    | none => .reraised e
  | .ok v =>
    match spec.return_spec with
    | some _ =>
      match v with
      | none => .assertionFailed endpoint
      | some x =>
          .response OK
            { excValues := List.replicate spec.exception_specs.length none,
              success := some x }
    | none =>
        .response OK
          { excValues := List.replicate spec.exception_specs.length none,
            success := none }

/-- A thriftrw function spec: name, oneway flag, and the identities of the
request and response union classes generated for the function. -/
structure FuncSpec where
  name : String
  oneway : Bool
  request_cls : Nat
  response_cls : Nat
deriving DecidableEq

/-- A TChannelThriftModule: the module identity and the service name and
hostport it was loaded with. -/
structure ModuleRef where
  moduleId : Nat
  service : Option String
  hostport : Option String
deriving DecidableEq

/-- The Function wrapper around a thriftrw ServiceFunction. -/
structure Function where
  spec : FuncSpec
  serviceName : String
  module : ModuleRef
deriving DecidableEq

/-- The request union class of the function. -/
def Function.request_cls (f : Function) : Nat := f.spec.request_cls

/-- The response union class of the function. -/
def Function.response_cls (f : Function) : Nat := f.spec.response_cls

/-- Function.endpoint: ServiceName::methodName. -/
def Function.endpoint (f : Function) : String :=
  f.serviceName ++ "::" ++ f.spec.name

/-- Function.oneway. -/
def Function.oneway (f : Function) : Bool := f.spec.oneway

/-- Python truthiness of an optional string: None and the empty string are
falsy. -/
def truthy : Option String → Bool
  | none => false
  | some s => !(s == "")

/-- The outcome of Function.call: the OneWayNotSupportedError, the
ValueError for a module with neither service nor hostport, or the
constructed ThriftRWRequest. -/
inductive CallOutcome where
  | onewayNotSupportedError
  | noServiceValueError
  | request (service : Option String) (endpoint : String) (result_type : Nat)
      (hostport : Option String)
deriving DecidableEq

/-- Function.call: oneway functions raise OneWayNotSupportedError first;
then a module with neither hostport nor service raises ValueError; otherwise
a ThriftRWRequest is built with the endpoint, the response class as result
type, and the module service and hostport. -/
def Function.call (f : Function) : CallOutcome :=
  if f.oneway then .onewayNotSupportedError
  else if !(truthy f.module.hostport || truthy f.module.service) then
    .noServiceValueError
  else .request f.module.service f.endpoint f.response_cls f.module.hostport

/-- A ThriftRWSerializer: the module and class it serializes. -/
structure Serializer where
  moduleId : Nat
  cls : Nat
deriving DecidableEq

/-- The wrapped handler returned by build_handler: its name is the function
name, and it closes over the user handler. -/
structure BuiltHandler where
  funcName : String
  handlerId : Nat
deriving DecidableEq

/-- One dispatcher entry: wrapped handler, request serializer, response
serializer. -/
structure Registration where
  handler : BuiltHandler
  req_serializer : Serializer
  res_serializer : Serializer
deriving DecidableEq

/-- The inbound dispatcher: a mapping from endpoint name (arg1) to its
registration, later bindings shadowing earlier ones. -/
structure Dispatcher where
  endpoints : List (String × Registration)
deriving DecidableEq

/-- Look an endpoint up in the dispatcher. -/
def Dispatcher.lookup (d : Dispatcher) (ep : String) : Option Registration :=
  (d.endpoints.find? (fun p => p.1 == ep)).map Prod.snd

/-- Dispatcher.register: bind an endpoint name to a registration. -/
def Dispatcher.register (d : Dispatcher) (ep : String) (r : Registration) :
    Dispatcher :=
  { endpoints := (ep, r) :: d.endpoints }

theorem Dispatcher.lookup_register_self (d : Dispatcher) (ep : String)
    (r : Registration) : (d.register ep r).lookup ep = some r := by
  simp [Dispatcher.lookup, Dispatcher.register, List.find?]

theorem Dispatcher.lookup_register_other (d : Dispatcher) (ep ep2 : String)
    (r : Registration) (h : ep2 ≠ ep) :
    (d.register ep r).lookup ep2 = d.lookup ep2 := by
  have hb : (ep == ep2) = false := by
    simpa using fun he => h he.symm
  simp only [Dispatcher.lookup, Dispatcher.register, List.find?, hb]

/-- The Service wrapper: service name, owning module, and the function specs
of the service. -/
structure Service where
  serviceName : String
  module : ModuleRef
  functions : List FuncSpec
deriving DecidableEq

/-- getattr(service, method, None): the Function object for a declared
method name, or None. -/
def Service.getFunction (s : Service) (m : String) : Option Function :=
  (s.functions.find? (fun fs => fs.name == m)).map
    (fun fs => { spec := fs, serviceName := s.serviceName, module := s.module })

/-- The method name register acts on: the method argument when it is a
non-empty string, the handler name otherwise. -/
def effectiveMethod (method : Option String) (handlerName : String) : String :=
  match method with
  | none => handlerName
  | some s => if s == "" then handlerName else s

/-- The outcome of the register decorator in tchannel/thrift/rw.py: one of
its two assertions fails, or the endpoint is registered on the dispatcher
and the wrapped handler returned. -/
inductive RegisterOutcome where
  | noSuchMethodAssertion (serviceName method : String)
  | onewayAssertion
  | registered (d : Dispatcher) (h : BuiltHandler)
deriving DecidableEq

/-- The register decorator: resolve the method name, assert the service
declares it, assert it is not oneway, then register the endpoint with the
wrapped handler and a ThriftRWSerializer for the request class and one for
the response class. -/
def registerThrift (d : Dispatcher) (svc : Service) (method : Option String)
    (handlerName : String) (handlerId : Nat) : RegisterOutcome :=
  let m := effectiveMethod method handlerName
  match svc.getFunction m with
  | none => .noSuchMethodAssertion svc.serviceName m
  | some f =>
    if f.oneway then .onewayAssertion
    else
      .registered
        (d.register f.endpoint
          { handler := { funcName := f.spec.name, handlerId := handlerId },
            req_serializer := { moduleId := svc.module.moduleId, cls := f.request_cls },
            res_serializer := { moduleId := svc.module.moduleId, cls := f.response_cls } })
        { funcName := f.spec.name, handlerId := handlerId }

/-- Python str.endswith, on the character sequences of the strings. -/
def strEndsWith (s suffixStr : String) : Bool :=
  List.isSuffixOf suffixStr.data s.data

/-- The argument fixup at the top of thrift.load: callers may pass the
service name first; when the first positional argument does not end in
.thrift the two are swapped.  Returns the (service, path) pair that the rest
of load uses. -/
def load (path : String) (service : Option String) :
    Option String × Option String :=
  if strEndsWith path ".thrift" then (service, some path)
  else (some path, service)

/-- Claim C1: when the user handler raises an exception whose class is one of
the declared exception classes, the wrapped handler answers a normal
response with status FAILED whose body is the response union carrying the
exception in the matching field (the first matching one) and no success
value; when the raised exception matches no declared exception class, it
propagates out of the wrapped handler unchanged. -/
theorem claim_C1_build_handler_exceptions (spec : ResponseSpec)
    (endpoint : String) (e : Exc) :
    (∀ front fs tail, spec.exception_specs = front ++ fs :: tail →
      isinstance e fs.cls = true →
      (∀ g ∈ front, isinstance e g.cls = false) →
      handle spec endpoint (.exc e) =
        .response FAILED
          { excValues :=
              (List.replicate spec.exception_specs.length (none : Option Exc)).set
                front.length (some e),
            success := none }) ∧
    ((∀ g ∈ spec.exception_specs, isinstance e g.cls = false) →
      handle spec endpoint (.exc e) = .reraised e) := by
  constructor
  · intro front fs tail hdecomp hmatch hfront
    have hidx : findMatchIdx e spec.exception_specs = some front.length := by
      rw [hdecomp]
      exact findMatchIdx_append e front fs tail hmatch hfront
    simp [handle, hidx]
  · intro hall
    have hidx := findMatchIdx_none e spec.exception_specs hall
    simp [handle, hidx]

/-- Witness for claim C1: a handler exception matching the second declared
exception class lands in the second field of a FAILED response, and a
non-matching exception is re-raised. -/
theorem claim_C1_build_handler_exceptions_witness :
    handle ⟨[⟨"nf", ⟨1⟩⟩, ⟨"bad", ⟨2⟩⟩], some ()⟩ "KeyValue::getValue"
        (.exc ⟨⟨2⟩, 5⟩) =
      .response FAILED ⟨[none, some ⟨⟨2⟩, 5⟩], none⟩ ∧
    handle ⟨[⟨"nf", ⟨1⟩⟩, ⟨"bad", ⟨2⟩⟩], some ()⟩ "KeyValue::getValue"
        (.exc ⟨⟨3⟩, 5⟩) =
      .reraised ⟨⟨3⟩, 5⟩ := by
  constructor
  · have h := (claim_C1_build_handler_exceptions
      ⟨[⟨"nf", ⟨1⟩⟩, ⟨"bad", ⟨2⟩⟩], some ()⟩ "KeyValue::getValue" ⟨⟨2⟩, 5⟩).1
      [⟨"nf", ⟨1⟩⟩] ⟨"bad", ⟨2⟩⟩ [] rfl (by decide) (by decide)
    simpa using h
  · exact (claim_C1_build_handler_exceptions
      ⟨[⟨"nf", ⟨1⟩⟩, ⟨"bad", ⟨2⟩⟩], some ()⟩ "KeyValue::getValue" ⟨⟨3⟩, 5⟩).2
      (by decide)

/-- Claim C2: when the response union body has a set exception field,
read_body raises the first set one in declaration order and never returns a
success value. -/
theorem claim_C2_read_body_raises (spec : ResponseSpec) (endpoint : String)
    (body : ResponseBody) (e : Exc) (front tail : List (Option Exc))
    (hdecomp : body.excValues = front ++ some e :: tail)
    (hfront : ∀ x ∈ front, x = none) :
    read_body spec endpoint body = .raised e ∧
      ∀ v, read_body spec endpoint body ≠ .ok v := by
  have hfe : firstExc body.excValues = some e := by
    rw [hdecomp]
    exact firstExc_append front tail e hfront
  constructor
  · simp [read_body, hfe]
  · intro v
    simp [read_body, hfe]

/-- Witness for claim C2: a body whose second exception field is set raises
it even though a success value is present. -/
theorem claim_C2_read_body_raises_witness :
    read_body ⟨[⟨"nf", ⟨1⟩⟩, ⟨"bad", ⟨2⟩⟩], some ()⟩ "KeyValue::getValue"
        ⟨[none, some ⟨⟨2⟩, 5⟩], some 9⟩ = .raised ⟨⟨2⟩, 5⟩ ∧
      ∀ v, read_body ⟨[⟨"nf", ⟨1⟩⟩, ⟨"bad", ⟨2⟩⟩], some ()⟩ "KeyValue::getValue"
        ⟨[none, some ⟨⟨2⟩, 5⟩], some 9⟩ ≠ .ok v :=
  claim_C2_read_body_raises ⟨[⟨"nf", ⟨1⟩⟩, ⟨"bad", ⟨2⟩⟩], some ()⟩
    "KeyValue::getValue" ⟨[none, some ⟨⟨2⟩, 5⟩], some 9⟩ ⟨⟨2⟩, 5⟩
    [none] [] rfl (by decide)

/-- Claim C3: for a non-void function, a response body with no exception set
and success None surfaces a ValueExpectedError to the caller, and on the
server side a handler returning None for such a function trips the assertion
before any response is built; for a void function, read_body returns None on
success. -/
theorem claim_C3_value_expected (spec : ResponseSpec) (endpoint : String)
    (body : ResponseBody) :
    (spec.return_spec.isSome = true → (∀ x ∈ body.excValues, x = none) →
      body.success = none →
      read_body spec endpoint body = .valueExpectedError endpoint) ∧
    (spec.return_spec.isSome = true →
      handle spec endpoint (.ok none) = .assertionFailed endpoint) ∧
    (spec.return_spec = none → (∀ x ∈ body.excValues, x = none) →
      read_body spec endpoint body = .ok none) := by
  refine ⟨?_, ?_, ?_⟩
  · intro hret hnone hsucc
    have hfe := firstExc_of_all_none body.excValues hnone
    obtain ⟨u, hu⟩ := Option.isSome_iff_exists.mp hret
    simp [read_body, hfe, hu, hsucc]
  · intro hret
    obtain ⟨u, hu⟩ := Option.isSome_iff_exists.mp hret
    simp [handle, hu]
  · intro hret hnone
    have hfe := firstExc_of_all_none body.excValues hnone
    simp [read_body, hfe, hret]

/-- Witness for claim C3: a valueless non-void response raises
ValueExpectedError, a None-returning handler for a non-void function trips
the assertion, and a void response reads as None. -/
theorem claim_C3_value_expected_witness :
    read_body ⟨[], some ()⟩ "KeyValue::getValue" ⟨[], none⟩ =
      .valueExpectedError "KeyValue::getValue" ∧
    handle ⟨[], some ()⟩ "KeyValue::getValue" (.ok none) =
      .assertionFailed "KeyValue::getValue" ∧
    read_body ⟨[⟨"nf", ⟨1⟩⟩], none⟩ "KeyValue::setValue" ⟨[none], none⟩ =
      .ok none := by
  refine ⟨?_, ?_, ?_⟩
  · exact (claim_C3_value_expected ⟨[], some ()⟩ "KeyValue::getValue"
      ⟨[], none⟩).1 rfl (by decide) rfl
  · exact (claim_C3_value_expected ⟨[], some ()⟩ "KeyValue::getValue"
      ⟨[], none⟩).2.1 rfl
  · exact (claim_C3_value_expected ⟨[⟨"nf", ⟨1⟩⟩], none⟩ "KeyValue::setValue"
      ⟨[none], none⟩).2.2 rfl (by decide)

/-- Claim C4: invoking a oneway Function raises OneWayNotSupportedError
before any request is constructed, and registering a oneway function as a
server handler fails the register assertion. -/
theorem claim_C4_oneway (f : Function) (d : Dispatcher) (svc : Service)
    (method : Option String) (handlerName : String) (handlerId : Nat) :
    (f.oneway = true → f.call = .onewayNotSupportedError) ∧
    (∀ g, svc.getFunction (effectiveMethod method handlerName) = some g →
      g.oneway = true →
      registerThrift d svc method handlerName handlerId = .onewayAssertion) := by
  constructor
  · intro h
    simp [Function.call, h]
  · intro g hg hone
    simp [registerThrift, hg, hone]

/-- Witness for claim C4 at a concrete oneway function and service. -/
theorem claim_C4_oneway_witness :
    Function.call ⟨⟨"fire", true, 10, 11⟩, "KeyValue", ⟨3, some "kv", none⟩⟩ =
      .onewayNotSupportedError ∧
    registerThrift ⟨[]⟩ ⟨"KeyValue", ⟨3, some "kv", none⟩, [⟨"fire", true, 10, 11⟩]⟩
        (some "fire") "fire" 7 = .onewayAssertion := by
  constructor
  · exact (claim_C4_oneway ⟨⟨"fire", true, 10, 11⟩, "KeyValue", ⟨3, some "kv", none⟩⟩
      ⟨[]⟩ ⟨"KeyValue", ⟨3, some "kv", none⟩, []⟩ none "fire" 7).1 rfl
  · exact (claim_C4_oneway ⟨⟨"fire", true, 10, 11⟩, "KeyValue", ⟨3, some "kv", none⟩⟩
      ⟨[]⟩ ⟨"KeyValue", ⟨3, some "kv", none⟩, [⟨"fire", true, 10, 11⟩]⟩
      (some "fire") "fire" 7).2
      ⟨⟨"fire", true, 10, 11⟩, "KeyValue", ⟨3, some "kv", none⟩⟩ (by decide) rfl

/-- Claim C7: registering a declared non-oneway method installs, under the
endpoint name ServiceName::methodName, the wrapped handler together with
serializers built from the function request class and response class,
leaving every other endpoint binding unchanged; an undeclared method fails
the register assertion. -/
theorem claim_C7_register (d : Dispatcher) (svc : Service)
    (method : Option String) (handlerName : String) (handlerId : Nat) :
    (∀ f, svc.getFunction (effectiveMethod method handlerName) = some f →
      f.oneway = false →
      registerThrift d svc method handlerName handlerId =
        .registered
          (d.register (svc.serviceName ++ "::" ++ f.spec.name)
            { handler := { funcName := f.spec.name, handlerId := handlerId },
              req_serializer :=
                { moduleId := svc.module.moduleId, cls := f.spec.request_cls },
              res_serializer :=
                { moduleId := svc.module.moduleId, cls := f.spec.response_cls } })
          { funcName := f.spec.name, handlerId := handlerId } ∧
      (d.register (svc.serviceName ++ "::" ++ f.spec.name)
            { handler := { funcName := f.spec.name, handlerId := handlerId },
              req_serializer :=
                { moduleId := svc.module.moduleId, cls := f.spec.request_cls },
              res_serializer :=
                { moduleId := svc.module.moduleId, cls := f.spec.response_cls } }).lookup
          (svc.serviceName ++ "::" ++ f.spec.name) =
        some { handler := { funcName := f.spec.name, handlerId := handlerId },
               req_serializer :=
                 { moduleId := svc.module.moduleId, cls := f.spec.request_cls },
               res_serializer :=
                 { moduleId := svc.module.moduleId, cls := f.spec.response_cls } } ∧
      (∀ ep, ep ≠ svc.serviceName ++ "::" ++ f.spec.name →
        (d.register (svc.serviceName ++ "::" ++ f.spec.name)
            { handler := { funcName := f.spec.name, handlerId := handlerId },
              req_serializer :=
                { moduleId := svc.module.moduleId, cls := f.spec.request_cls },
              res_serializer :=
                { moduleId := svc.module.moduleId, cls := f.spec.response_cls } }).lookup
          ep = d.lookup ep)) ∧
    (svc.getFunction (effectiveMethod method handlerName) = none →
      registerThrift d svc method handlerName handlerId =
        .noSuchMethodAssertion svc.serviceName
          (effectiveMethod method handlerName)) ∧
    (∀ f, svc.getFunction (effectiveMethod method handlerName) = some f →
      f.oneway = true →
      registerThrift d svc method handlerName handlerId = .onewayAssertion) := by
  refine ⟨?_, ?_, ?_⟩
  · intro f hf hone
    obtain ⟨fs, hfind, hmk⟩ := Option.map_eq_some'.mp hf
    have hep : f.endpoint = svc.serviceName ++ "::" ++ f.spec.name := by
      rw [← hmk]
      rfl
    refine ⟨?_, ?_, ?_⟩
    · simp only [registerThrift, hf, hone, Bool.false_eq_true, if_false]
      rw [hep]
      simp [Function.request_cls, Function.response_cls]
    · exact Dispatcher.lookup_register_self _ _ _
    · intro ep hne
      exact Dispatcher.lookup_register_other _ _ _ _ hne
  · intro hnone
    simp [registerThrift, hnone]
  · intro f hf hone
    simp [registerThrift, hf, hone]

/-- Witness for claim C7: registering getValue on a two-method service binds
the endpoint KeyValue::getValue to the wrapped handler and the serializers
of its request and response classes. -/
theorem claim_C7_register_witness :
    registerThrift ⟨[]⟩
        ⟨"KeyValue", ⟨3, some "kv", none⟩,
          [⟨"getValue", false, 10, 11⟩, ⟨"setValue", false, 12, 13⟩]⟩
        none "getValue" 7 =
      .registered
        (Dispatcher.register ⟨[]⟩ ("KeyValue" ++ "::" ++ "getValue")
          { handler := { funcName := "getValue", handlerId := 7 },
            req_serializer := { moduleId := 3, cls := 10 },
            res_serializer := { moduleId := 3, cls := 11 } })
        { funcName := "getValue", handlerId := 7 } := by
  exact ((claim_C7_register ⟨[]⟩
      ⟨"KeyValue", ⟨3, some "kv", none⟩,
        [⟨"getValue", false, 10, 11⟩, ⟨"setValue", false, 12, 13⟩]⟩
      none "getValue" 7).1
    ⟨⟨"getValue", false, 10, 11⟩, "KeyValue", ⟨3, some "kv", none⟩⟩
    (by decide) rfl).1

/-- Claim C9: thrift.load swaps its first two arguments, using the first as
the service name and the second as the path, exactly when the first does not
end in .thrift; otherwise they are used as given. -/
theorem claim_C9_load_swap (path : String) (service : Option String) :
    (strEndsWith path ".thrift" = false →
      load path service = (some path, service)) ∧
    (strEndsWith path ".thrift" = true →
      load path service = (service, some path)) := by
  constructor
  · intro h
    simp [load, h]
  · intro h
    simp [load, h]

/-- Witness for claim C9: a service name passed first is swapped into place,
and a real Thrift path is used as given. -/
theorem claim_C9_load_swap_witness :
    load "coffee" (some "coffee.thrift") =
      (some "coffee", some "coffee.thrift") ∧
    load "donuts.thrift" none = (none, some "donuts.thrift") :=
  ⟨(claim_C9_load_swap "coffee" (some "coffee.thrift")).1 (by decide),
   (claim_C9_load_swap "donuts.thrift" none).2 (by decide)⟩

end TChannelPy
